import Mathlib

/-!
Shallow embedding of the Cash Flow Analytics Engine of the retail_pilot_poc
repository.  The repository contains two copies of the analytics code:
`app/api/analyze/route.ts` (namespace `ApiRoute` below) and `lib/analysis.ts`
(namespace `LibAnalysis` below).  Monetary values, quantities and timestamps
are modelled as rationals; `day` models `new Date(t.day).getTime()` in
milliseconds; an empty string models a missing/falsy string field (the only
falsy value of JavaScript's string type); an absent collection on the dataset
object is modelled with `Option`; a JavaScript division whose result is
`NaN`/`Infinity` (division by zero) is modelled as `none`.
-/

namespace RetailPilot

/-- Transaction row of `lib/types.ts`. -/
structure Transaction where
  transaction_id : String
  day : ℚ
  product_id : String
  product_name : String
  quantity : ℚ
  gross_sales : ℚ
  discount : ℚ
  net_sales : ℚ
  cogs : ℚ
  gross_profit : ℚ
  payment_type : String
deriving DecidableEq

/-- Refund row of `lib/types.ts`. -/
structure Refund where
  refund_id : String
  transaction_id : String
  refund_amount : ℚ
  refund_date : ℚ
deriving DecidableEq

/-- Payout row of `lib/types.ts`. -/
structure Payout where
  payout_date : ℚ
  processor_fees : ℚ
  net_payout : ℚ
deriving DecidableEq

/-- Product row of `lib/types.ts` (never read by the analytics functions). -/
structure Product where
  product_id : String
  product_name : String
  cogs : ℚ
deriving DecidableEq

/-- `CashFlowData` of `lib/types.ts`: all four collections are optional. -/
structure CashFlowData where
  transactions : Option (List Transaction)
  refunds : Option (List Refund)
  payouts : Option (List Payout)
  products : Option (List Product)
deriving DecidableEq

/-- `BusinessSnapshot` of `lib/types.ts`. -/
structure BusinessSnapshot where
  totalTransactions : ℕ
  itemsSold : ℚ
  grossSales : ℚ
  discounts : ℚ
  cardSales : ℚ
  cashSales : ℚ
  processorFees : ℚ
  refunds : ℚ
deriving DecidableEq

/-- `CashEater` of `lib/types.ts`, as produced by `app/api/analyze/route.ts`
(the guarded percentage is always a number). -/
structure CashEater where
  category : String
  amount : ℚ
  percentage : ℚ
deriving DecidableEq

/-- `CashEater` as produced by `lib/analysis.ts`: the unguarded division can
yield `NaN` (modelled `none`), matching the optional field of `lib/types.ts`. -/
structure CashEaterL where
  category : String
  amount : ℚ
  percentage : Option ℚ
deriving DecidableEq

/-- `LowMarginProduct` of `lib/types.ts`. -/
structure LowMarginProduct where
  product_id : String
  product_name : String
  revenue : ℚ
  gross_profit : ℚ
  margin_pct : ℚ
deriving DecidableEq

/-- `ReorderItem` of `lib/types.ts`. -/
structure ReorderItem where
  product_name : String
  suggested_qty : ℤ
  budget_spend : ℚ
  est_weekly_profit : ℚ
deriving DecidableEq

/-- `list.reduce((sum, x) => sum + f(x), 0)`. -/
def sumBy (f : α → ℚ) (l : List α) : ℚ :=
  (l.map f).sum

/-- JavaScript division, `none` standing for the non-finite results
(`0/0 = NaN`, `x/0 = ±Infinity`). -/
def jsDiv (a b : ℚ) : Option ℚ :=
  if b = 0 then none else some (a / b)

/-- `Number(x.toFixed(2))`: rounding to 2 decimal places, halves away from
zero (the idealised reading of `toFixed` on an exact value). -/
def round2 (x : ℚ) : ℚ :=
  if 0 ≤ x then ((⌊x * 100 + 1 / 2⌋ : ℤ) : ℚ) / 100
  else -(((⌊-x * 100 + 1 / 2⌋ : ℤ) : ℚ) / 100)

/-- `Math.min(...l)` over a list that is nonempty whenever the value is
consumed (JavaScript yields `Infinity` on an empty spread; the `0` default
below is never read in that case). -/
def listMinQ : List ℚ → ℚ
  | [] => 0
  | x :: xs => xs.foldl min x

/-- `Math.max(...l)`; as with `listMinQ`, the empty-list default is never
consumed (JavaScript would yield `-Infinity`). -/
def listMaxQ : List ℚ → ℚ
  | [] => 0
  | x :: xs => xs.foldl max x

/-- `map.get(k)` on a JavaScript `Map` represented as an insertion-ordered
association list. -/
def findAssoc : List (String × β) → String → Option β
  | [], _ => none
  | (k, v) :: rest, key => if k = key then some v else findAssoc rest key

/-- `map.set(k, v)`: replaces in place when the key exists (a JavaScript
`Map` keeps the original insertion position), appends otherwise. -/
def updateAssoc : List (String × β) → String → β → List (String × β)
  | [], key, v => [(key, v)]
  | (k, w) :: rest, key, v =>
    if k = key then (key, v) :: rest else (k, w) :: updateAssoc rest key v

/-- Insertion step of a stable sort: an element passes over exactly the
elements strictly below it under `lt`, so equal elements keep their original
relative order — the behaviour of JavaScript's (stable) `Array.prototype.sort`
with comparator `cmp`, where `lt a b` stands for `cmp(a, b) < 0`. -/
def stableInsert (lt : α → α → Bool) (x : α) : List α → List α
  | [] => [x]
  | y :: ys => if lt y x then y :: stableInsert lt x ys else x :: y :: ys

/-- Stable sort modelling `Array.prototype.sort(cmp)`. -/
def stableSort (lt : α → α → Bool) : List α → List α
  | [] => []
  | x :: xs => stableInsert lt x (stableSort lt xs)

namespace ApiRoute

/-- `calculateSnapshot` of `app/api/analyze/route.ts` (lines 17–38). -/
def calculateSnapshot (data : CashFlowData) : BusinessSnapshot :=
  let transactions := data.transactions.getD []
  let refunds := data.refunds.getD []
  let payouts := data.payouts.getD []
  let cardSales :=
    sumBy (fun t => t.net_sales) (transactions.filter (fun t => t.payment_type = "card"))
  let cashSales :=
    sumBy (fun t => t.net_sales) (transactions.filter (fun t => t.payment_type = "cash"))
  { totalTransactions := ((transactions.map (fun t => t.transaction_id)).dedup).length
    itemsSold := sumBy (fun t => t.quantity) transactions
    grossSales := sumBy (fun t => t.gross_sales) transactions
    discounts := sumBy (fun t => t.discount) transactions
    cardSales := cardSales
    cashSales := cashSales
    processorFees := sumBy (fun p => p.processor_fees) payouts
    refunds := sumBy (fun r => r.refund_amount) refunds }

/-- The `total` of `analyzeCashEaters` in `app/api/analyze/route.ts`
(lines 43–46): totalDiscounts + totalRefunds + totalFees. -/
def totalDrain (data : CashFlowData) : ℚ :=
  sumBy (fun t => t.discount) (data.transactions.getD []) +
    sumBy (fun r => r.refund_amount) (data.refunds.getD []) +
    sumBy (fun p => p.processor_fees) (data.payouts.getD [])

/-- The three-entry literal of `analyzeCashEaters` before sorting
(`route.ts` lines 48–51). -/
def cashEatersBase (data : CashFlowData) : List CashEater :=
  let totalDiscounts := sumBy (fun t => t.discount) (data.transactions.getD [])
  let totalRefunds := sumBy (fun r => r.refund_amount) (data.refunds.getD [])
  let totalFees := sumBy (fun p => p.processor_fees) (data.payouts.getD [])
  let total := totalDiscounts + totalRefunds + totalFees
  [ { category := "Discounts", amount := totalDiscounts
      percentage := if 0 < total then totalDiscounts / total * 100 else 0 }
  , { category := "Refunds", amount := totalRefunds
      percentage := if 0 < total then totalRefunds / total * 100 else 0 }
  , { category := "Processor fees", amount := totalFees
      percentage := if 0 < total then totalFees / total * 100 else 0 } ]

/-- Per-product accumulator of the low-margin grouping. -/
structure PStat where
  revenue : ℚ
  gross_profit : ℚ
  product_name : String
deriving DecidableEq

/-- One `forEach` step of the grouping in `route.ts` lines 61–75: rows with a
falsy `product_id` or `product_name` are skipped. -/
def ceStep (m : List (String × PStat)) (t : Transaction) : List (String × PStat) :=
  if t.product_id = "" ∨ t.product_name = "" then m
  else
    let existing := (findAssoc m t.product_id).getD
      { revenue := 0, gross_profit := 0, product_name := t.product_name }
    updateAssoc m t.product_id
      { revenue := existing.revenue + t.net_sales
        gross_profit := existing.gross_profit + t.gross_profit
        product_name := t.product_name }

/-- The `productStats` map of `route.ts` `analyzeCashEaters`. -/
def ceStats (ts : List Transaction) : List (String × PStat) :=
  ts.foldl ceStep []

/-- `Array.from(productStats.entries()).map(...)` of `route.ts` lines 77–84. -/
def lowMarginEntry (kv : String × PStat) : LowMarginProduct :=
  { product_id := kv.1
    product_name := kv.2.product_name
    revenue := kv.2.revenue
    gross_profit := kv.2.gross_profit
    margin_pct := if 0 < kv.2.revenue then kv.2.gross_profit / kv.2.revenue else 0 }

/-- Result record of `analyzeCashEaters` in `route.ts`. -/
structure CEResult where
  cashEaters : List CashEater
  lowMarginProducts : List LowMarginProduct
deriving DecidableEq

/-- `analyzeCashEaters` of `app/api/analyze/route.ts` (lines 40–90):
sorted cash-eater triple, then map → filter (revenue > 0) → sort by
`a.margin_pct - b.margin_pct` → slice(0, 5). -/
def analyzeCashEaters (data : CashFlowData) : CEResult :=
  { cashEaters :=
      stableSort (fun a b => decide (b.amount < a.amount)) (cashEatersBase data)
    lowMarginProducts :=
      (stableSort (fun a b => decide (a.margin_pct < b.margin_pct))
        (((ceStats (data.transactions.getD [])).map lowMarginEntry).filter
          (fun p => decide (0 < p.revenue)))).take 5 }

/-- Per-product accumulator of the reorder grouping (`route.ts` lines 100–121):
`name` and `cogs` always take the value of the most recently processed row. -/
structure RStat where
  name : String
  qty : ℚ
  gross_profit : ℚ
  cogs : ℚ
deriving DecidableEq

/-- One `forEach` step of the reorder grouping (no missing-field check in
either copy of the source). -/
def rpStep (m : List (String × RStat)) (t : Transaction) : List (String × RStat) :=
  let existing := (findAssoc m t.product_id).getD
    { name := t.product_name, qty := 0, gross_profit := 0, cogs := t.cogs }
  updateAssoc m t.product_id
    { name := t.product_name
      qty := existing.qty + t.quantity
      gross_profit := existing.gross_profit + t.gross_profit
      cogs := t.cogs }

/-- The `productStats` map of `generateReorderPlan`. -/
def rpStats (ts : List Transaction) : List (String × RStat) :=
  ts.foldl rpStep []

/-- Ranked product view (`route.ts` lines 124–132). -/
structure Ranked where
  product_name : String
  qty_per_day : ℚ
  gp_per_day : ℚ
  cogs : ℚ
  qty : ℚ
  gp : ℚ
deriving DecidableEq

/-- `days` (`route.ts` lines 96–97): `(max(dates) - min(dates)) / 86_400_000 + 1`.
For an empty list JavaScript yields `-Infinity`; that value is never consumed
because the ranked list is then empty. -/
def daysOf (ts : List Transaction) : ℚ :=
  (listMaxQ (ts.map (fun t => t.day)) - listMinQ (ts.map (fun t => t.day))) / 86400000 + 1

/-- The ranked list of `route.ts` lines 124–133: values of the grouping map in
insertion order, mapped to daily metrics, sorted descending by `gp_per_day`. -/
def rankedOf (ts : List Transaction) : List Ranked :=
  let days := daysOf ts
  stableSort (fun a b => decide (b.gp_per_day < a.gp_per_day))
    ((rpStats ts).map (fun kv =>
      { product_name := kv.2.name
        qty_per_day := kv.2.qty / days
        gp_per_day := kv.2.gross_profit / days
        cogs := kv.2.cogs
        qty := kv.2.qty
        gp := kv.2.gross_profit }))

/-- The `plan.push` payload of `route.ts` lines 147–152. -/
def planItem (p : Ranked) (buyUnits : ℤ) : ReorderItem :=
  { product_name := p.product_name
    suggested_qty := buyUnits
    budget_spend := round2 ((buyUnits : ℚ) * p.cogs)
    est_weekly_profit := round2 ((buyUnits : ℚ) * (p.gp / max 1 p.qty)) }

/-- The allocation walk of `route.ts` lines 136–158.  `minC` is
`Math.min(...ranked.map(p => p.cogs))`, a constant of the walk; the
early-stop check runs after each non-skipped product, and `continue`
(`cogs ≤ 0`) bypasses it. -/
def planLoop (minC : ℚ) : ℚ → List Ranked → List ReorderItem
  | _, [] => []
  | remaining, p :: rest =>
    if p.cogs ≤ 0 then planLoop minC remaining rest
    else
      let targetUnits : ℤ := max 1 ⌈p.qty_per_day * 5⌉
      let maxUnits : ℤ := ⌊remaining / p.cogs⌋
      let buyUnits : ℤ := max 0 (min targetUnits maxUnits)
      if 0 < buyUnits then
        let remaining2 := remaining - (buyUnits : ℚ) * p.cogs
        if remaining2 < minC then [planItem p buyUnits]
        else planItem p buyUnits :: planLoop minC remaining2 rest
      else
        if remaining < minC then [] else planLoop minC remaining rest

/-- `generateReorderPlan` of `app/api/analyze/route.ts` (lines 92–161). -/
def generateReorderPlan (data : CashFlowData) (budget : ℚ) : List ReorderItem :=
  let ranked := rankedOf (data.transactions.getD [])
  planLoop (listMinQ (ranked.map (fun p => p.cogs))) budget ranked

/-- The allocation walk without the early stop, used to state the
refinement claim about the early stop (spec §4.3 step 4). -/
def planLoopNoStop : ℚ → List Ranked → List ReorderItem
  | _, [] => []
  | remaining, p :: rest =>
    if p.cogs ≤ 0 then planLoopNoStop remaining rest
    else
      let targetUnits : ℤ := max 1 ⌈p.qty_per_day * 5⌉
      let maxUnits : ℤ := ⌊remaining / p.cogs⌋
      let buyUnits : ℤ := max 0 (min targetUnits maxUnits)
      if 0 < buyUnits then
        planItem p buyUnits :: planLoopNoStop (remaining - (buyUnits : ℚ) * p.cogs) rest
      else planLoopNoStop remaining rest

/-- `generateReorderPlan` with the early stop removed. -/
def generateReorderPlanNoStop (data : CashFlowData) (budget : ℚ) : List ReorderItem :=
  let ranked := rankedOf (data.transactions.getD [])
  planLoopNoStop budget ranked

/-- The `budget || 500` expression of the `POST` handler
(`route.ts` line 225): `none` models an absent/undefined field, and `0` is
the only falsy number reachable here. -/
def postEffectiveBudget (budget : Option ℚ) : ℚ :=
  match budget with
  | none => 500
  | some b => if b = 0 then 500 else b

/-- The reorder branch of the `POST` handler (`route.ts` lines 224–226),
restricted to its pure part. -/
def postReorderPlan (data : CashFlowData) (budget : Option ℚ) : List ReorderItem :=
  generateReorderPlan data (postEffectiveBudget budget)

end ApiRoute

namespace LibAnalysis

/-- `calculateExecutiveSnapshot` of `lib/analysis.ts` (lines 11–32).  The
function destructures the dataset without defaults, so an absent collection
makes the JavaScript throw (`undefined.filter`): modelled as `none`. -/
def calculateExecutiveSnapshot (data : CashFlowData) : Option BusinessSnapshot :=
  match data.transactions, data.refunds, data.payouts with
  | some transactions, some refunds, some payouts =>
    let cardSales :=
      sumBy (fun t => t.net_sales) (transactions.filter (fun t => t.payment_type = "card"))
    let cashSales :=
      sumBy (fun t => t.net_sales) (transactions.filter (fun t => t.payment_type = "cash"))
    some
      { totalTransactions := ((transactions.map (fun t => t.transaction_id)).dedup).length
        itemsSold := sumBy (fun t => t.quantity) transactions
        grossSales := sumBy (fun t => t.gross_sales) transactions
        discounts := sumBy (fun t => t.discount) transactions
        cardSales := cardSales
        cashSales := cashSales
        processorFees := sumBy (fun p => p.processor_fees) payouts
        refunds := sumBy (fun r => r.refund_amount) refunds }
  | _, _, _ => none

/-- One `forEach` step of the low-margin grouping in `lib/analysis.ts`
lines 72–84: no missing-field check. -/
def ceStepL (m : List (String × ApiRoute.PStat)) (t : Transaction) :
    List (String × ApiRoute.PStat) :=
  let existing := (findAssoc m t.product_id).getD
    { revenue := 0, gross_profit := 0, product_name := t.product_name }
  updateAssoc m t.product_id
    { revenue := existing.revenue + t.net_sales
      gross_profit := existing.gross_profit + t.gross_profit
      product_name := t.product_name }

/-- The `productStats` map of `lib/analysis.ts` `analyzeCashEaters`. -/
def ceStatsL (ts : List Transaction) : List (String × ApiRoute.PStat) :=
  ts.foldl ceStepL []

/-- Result record of `analyzeCashEaters` in `lib/analysis.ts`. -/
structure CEResultL where
  cashEaters : List CashEaterL
  lowMarginProducts : List LowMarginProduct
deriving DecidableEq

/-- The comparator `a.margin_pct - b.margin_pct || a.revenue - b.revenue`
(`lib/analysis.ts` line 94) read as `cmp(a, b) < 0`. -/
def ltMarginRevenue (a b : LowMarginProduct) : Bool :=
  if a.margin_pct = b.margin_pct then decide (a.revenue < b.revenue)
  else decide (a.margin_pct < b.margin_pct)

/-- `analyzeCashEaters` of `lib/analysis.ts` (lines 34–98): unguarded
percentage division, no missing-field skip, no `revenue > 0` filter, sort with
the revenue tie-break; throws (`none`) when a destructured collection is
absent. -/
def analyzeCashEaters (data : CashFlowData) : Option CEResultL :=
  match data.transactions, data.refunds, data.payouts with
  | some transactions, some refunds, some payouts =>
    let totalDiscounts := sumBy (fun t => t.discount) transactions
    let totalRefunds := sumBy (fun r => r.refund_amount) refunds
    let totalFees := sumBy (fun p => p.processor_fees) payouts
    let total := totalDiscounts + totalRefunds + totalFees
    some
      { cashEaters :=
          stableSort (fun a b => decide (b.amount < a.amount))
            [ { category := "Discounts", amount := totalDiscounts
                percentage := (jsDiv totalDiscounts total).map (fun q => q * 100) }
            , { category := "Refunds", amount := totalRefunds
                percentage := (jsDiv totalRefunds total).map (fun q => q * 100) }
            , { category := "Processor fees", amount := totalFees
                percentage := (jsDiv totalFees total).map (fun q => q * 100) } ]
        lowMarginProducts :=
          (stableSort ltMarginRevenue
            ((ceStatsL transactions).map ApiRoute.lowMarginEntry)).take 5 }
  | _, _, _ => none

/-- The comparator `b.gp_per_day - a.gp_per_day || b.qty_per_day - a.qty_per_day`
(`lib/analysis.ts` line 144) read as `cmp(a, b) < 0`. -/
def ltVelocity (a b : ApiRoute.Ranked) : Bool :=
  if b.gp_per_day = a.gp_per_day then decide (b.qty_per_day < a.qty_per_day)
  else decide (b.gp_per_day < a.gp_per_day)

/-- The ranked list of `lib/analysis.ts` lines 135–144 (velocity sort with the
quantity tie-break; grouping and daily metrics identical to the route copy). -/
def rankedOfL (ts : List Transaction) : List ApiRoute.Ranked :=
  let days := ApiRoute.daysOf ts
  stableSort ltVelocity
    ((ApiRoute.rpStats ts).map (fun kv =>
      { product_name := kv.2.name
        qty_per_day := kv.2.qty / days
        gp_per_day := kv.2.gross_profit / days
        cogs := kv.2.cogs
        qty := kv.2.qty
        gp := kv.2.gross_profit }))

/-- `generateReorderPlan` of `lib/analysis.ts` (lines 100–174): identical
allocation walk, tie-broken ranking, throws (`none`) when `transactions` is
absent. -/
def generateReorderPlan (data : CashFlowData) (budget : ℚ) : Option (List ReorderItem) :=
  match data.transactions with
  | some ts =>
    let ranked := rankedOfL ts
    some (ApiRoute.planLoop (listMinQ (ranked.map (fun p => p.cogs))) budget ranked)
  | none => none

/-- The `lowMarginProducts` of the `lib/analysis.ts` analyzer, `[]` when the
function throws (used to state sortedness without an `Option` binder). -/
def libLowMargins (data : CashFlowData) : List LowMarginProduct :=
  ((analyzeCashEaters data).map (fun r => r.lowMarginProducts)).getD []

end LibAnalysis

/-! ### Concrete datasets used as witnesses and counterexamples -/

/-- A single card transaction with unit cost 1/200 (half a cent). -/
def tHalfCent : Transaction :=
  { transaction_id := "t1", day := 0, product_id := "p1", product_name := "A"
    quantity := 1, gross_sales := 1, discount := 0, net_sales := 1
    cogs := 1 / 200, gross_profit := 1, payment_type := "card" }

/-- Dataset holding only `tHalfCent`. -/
def dHalfCent : CashFlowData := ⟨some [tHalfCent], some [], some [], none⟩

/-- Dataset whose three collections are present but empty. -/
def dEmpty : CashFlowData := ⟨some [], some [], some [], none⟩

/-- A transaction with zero net sales and zero gross profit. -/
def tZeroRev : Transaction :=
  { transaction_id := "t2", day := 0, product_id := "p1", product_name := "A"
    quantity := 1, gross_sales := 0, discount := 0, net_sales := 0
    cogs := 1, gross_profit := 0, payment_type := "card" }

/-- Dataset holding only `tZeroRev`. -/
def dZeroRev : CashFlowData := ⟨some [tZeroRev], some [], some [], none⟩

/-- Product A: revenue 10, gross profit 5 (margin 1/2). -/
def tMarginA : Transaction :=
  { transaction_id := "ta", day := 0, product_id := "pa", product_name := "A"
    quantity := 1, gross_sales := 10, discount := 0, net_sales := 10
    cogs := 1, gross_profit := 5, payment_type := "card" }

/-- Product B: revenue 2, gross profit 1 (margin 1/2, lower revenue). -/
def tMarginB : Transaction :=
  { transaction_id := "tb", day := 0, product_id := "pb", product_name := "B"
    quantity := 1, gross_sales := 2, discount := 0, net_sales := 2
    cogs := 1, gross_profit := 1, payment_type := "card" }

/-- Two products with equal margin 1/2 and revenues 10 and 2,
encountered in that order. -/
def dTie : CashFlowData := ⟨some [tMarginA, tMarginB], some [], some [], none⟩

/-- A transaction whose `product_id` and `product_name` are missing
(falsy empty strings). -/
def tNoId : Transaction :=
  { transaction_id := "t9", day := 0, product_id := "", product_name := ""
    quantity := 2, gross_sales := 6, discount := 1, net_sales := 5
    cogs := 1, gross_profit := 1, payment_type := "card" }

/-- Dataset holding only the unattributable row `tNoId`. -/
def dNoId : CashFlowData := ⟨some [tNoId], some [], some [], none⟩

/-- A refund of 5, to make the cash-eater total positive. -/
def dRefundOnly : CashFlowData :=
  ⟨some [], some [{ refund_id := "r1", transaction_id := "t1", refund_amount := 5, refund_date := 0 }],
    some [], none⟩

/-! ### Helper lemmas -/

theorem sumBy_cons (f : α → ℚ) (x : α) (l : List α) :
    sumBy f (x :: l) = f x + sumBy f l := by
  simp [sumBy]

theorem stableInsert_perm (lt : α → α → Bool) (x : α) :
    ∀ l : List α, (stableInsert lt x l).Perm (x :: l)
  | [] => List.Perm.refl _
  | y :: ys => by
    rw [stableInsert]
    by_cases h : lt y x = true
    · simp only [h, if_true]
      exact ((stableInsert_perm lt x ys).cons y).trans (List.Perm.swap x y ys)
    · simp only [h, if_false]
      exact List.Perm.refl _

theorem stableSort_perm (lt : α → α → Bool) :
    ∀ l : List α, (stableSort lt l).Perm l
  | [] => List.Perm.refl _
  | x :: xs => (stableInsert_perm lt x _).trans ((stableSort_perm lt xs).cons x)

theorem mem_stableSort (lt : α → α → Bool) (l : List α) (a : α) :
    a ∈ stableSort lt l ↔ a ∈ l :=
  (stableSort_perm lt l).mem_iff

theorem stableInsert_pairwise (lt : α → α → Bool)
    (hA : ∀ a b, lt a b = true → lt b a = false)
    (hT : ∀ a b c, lt a b = false → lt b c = false → lt a c = false)
    (x : α) : ∀ l : List α, l.Pairwise (fun a b => lt b a = false) →
      (stableInsert lt x l).Pairwise (fun a b => lt b a = false)
  | [], _ => by simp [stableInsert]
  | y :: ys, h => by
    rw [stableInsert]
    rcases List.pairwise_cons.mp h with ⟨hy, hys⟩
    by_cases hlt : lt y x = true
    · simp only [hlt, if_true]
      refine List.pairwise_cons.mpr ⟨?_, stableInsert_pairwise lt hA hT x ys hys⟩
      intro z hz
      rcases List.mem_cons.mp ((stableInsert_perm lt x ys).mem_iff.mp hz) with hzx | hzys
      · rw [hzx]; exact hA y x hlt
      · exact hy z hzys
    · simp only [hlt, if_false]
      refine List.pairwise_cons.mpr ⟨?_, h⟩
      intro z hz
      have hyx : lt y x = false := by
        cases hxy : lt y x
        · rfl
        · exact absurd hxy hlt
      rcases List.mem_cons.mp hz with hzy | hzys
      · subst hzy; exact hyx
      · exact hT z y x (hy z hzys) hyx

theorem stableSort_pairwise (lt : α → α → Bool)
    (hA : ∀ a b, lt a b = true → lt b a = false)
    (hT : ∀ a b c, lt a b = false → lt b c = false → lt a c = false) :
    ∀ l : List α, (stableSort lt l).Pairwise (fun a b => lt b a = false)
  | [] => List.Pairwise.nil
  | x :: xs =>
    stableInsert_pairwise lt hA hT x _ (stableSort_pairwise lt hA hT xs)

theorem foldl_min_le (l : List ℚ) : ∀ (a : ℚ),
    (∀ x ∈ l, l.foldl min a ≤ x) ∧ l.foldl min a ≤ a := by
  induction l with
  | nil =>
    intro a
    exact ⟨fun x hx => absurd hx (List.not_mem_nil x), le_refl a⟩
  | cons y ys ih =>
    intro a
    have h := ih (min a y)
    refine ⟨?_, ?_⟩
    · intro x hx
      rcases List.mem_cons.mp hx with rfl | hx
      · exact le_trans h.2 (min_le_right a x)
      · exact h.1 x hx
    · exact le_trans h.2 (min_le_left a y)

theorem listMinQ_le (l : List ℚ) (x : ℚ) (hx : x ∈ l) : listMinQ l ≤ x := by
  cases l with
  | nil => cases hx
  | cons y ys =>
    rw [listMinQ]
    rcases List.mem_cons.mp hx with rfl | hx
    · exact (foldl_min_le ys x).2
    · exact (foldl_min_le ys y).1 x hx

theorem buyUnits_mul_le (rem cogs : ℚ) (hc : 0 < cogs) (t : ℤ)
    (hb : 0 < max 0 (min t ⌊rem / cogs⌋)) :
    ((max 0 (min t ⌊rem / cogs⌋) : ℤ) : ℚ) * cogs ≤ rem := by
  have hmin : 0 < min t ⌊rem / cogs⌋ := by
    by_contra hmin
    rw [max_eq_left (le_of_not_lt hmin)] at hb
    exact lt_irrefl 0 hb
  rw [max_eq_right hmin.le]
  have h1 : min t ⌊rem / cogs⌋ ≤ ⌊rem / cogs⌋ := min_le_right _ _
  have h2 : ((min t ⌊rem / cogs⌋ : ℤ) : ℚ) ≤ rem / cogs :=
    le_trans (by exact_mod_cast h1) (Int.floor_le _)
  calc ((min t ⌊rem / cogs⌋ : ℤ) : ℚ) * cogs
      ≤ rem / cogs * cogs := mul_le_mul_of_nonneg_right h2 hc.le
    _ = rem := div_mul_cancel₀ rem hc.ne'

theorem planLoop_zero (minC : ℚ) : ∀ l : List ApiRoute.Ranked, ApiRoute.planLoop minC 0 l = [] := by
  intro l
  induction l with
  | nil => rfl
  | cons p rest ih =>
    rw [ApiRoute.planLoop]
    by_cases hc : p.cogs ≤ 0
    · rw [if_pos hc]; exact ih
    · rw [if_neg hc]
      have hc' : 0 < p.cogs := lt_of_not_ge hc
      have hbuy : max 0 (min (max 1 ⌈p.qty_per_day * 5⌉) ⌊(0 : ℚ) / p.cogs⌋) = 0 := by
        rw [zero_div, Int.floor_zero]
        rw [min_eq_right (le_trans (by norm_num : (0 : ℤ) ≤ 1) (le_max_left 1 _))]
        exact max_self 0
      simp only [hbuy, lt_irrefl, if_false]
      by_cases hmc : (0 : ℚ) < minC
      · simp only [hmc, if_true]
      · simp only [hmc, if_false]
        exact ih

theorem planLoopNoStop_nil (l : List ApiRoute.Ranked) :
    ∀ rem : ℚ, (∀ p ∈ l, 0 < p.cogs → rem < p.cogs) → ApiRoute.planLoopNoStop rem l = [] := by
  induction l with
  | nil => intro rem _; rfl
  | cons p rest ih =>
    intro rem h
    rw [ApiRoute.planLoopNoStop]
    by_cases hc : p.cogs ≤ 0
    · rw [if_pos hc]
      exact ih rem fun q hq => h q (List.mem_cons_of_mem p hq)
    · rw [if_neg hc]
      have hc' : 0 < p.cogs := lt_of_not_ge hc
      have hrem : rem < p.cogs := h p (List.mem_cons_self p rest) hc'
      have hfloor : ⌊rem / p.cogs⌋ ≤ 0 := by
        have : rem / p.cogs < 1 := (div_lt_one hc').mpr hrem
        have h1 : ⌊rem / p.cogs⌋ < 1 := Int.floor_lt.mpr (by exact_mod_cast this)
        omega
      have hbuy : max 0 (min (max 1 ⌈p.qty_per_day * 5⌉) ⌊rem / p.cogs⌋) = 0 := by
        have hmin : min (max 1 ⌈p.qty_per_day * 5⌉) ⌊rem / p.cogs⌋ ≤ 0 :=
          le_trans (min_le_right _ _) hfloor
        exact max_eq_left hmin
      simp only [hbuy, lt_irrefl, if_false]
      exact ih rem fun q hq => h q (List.mem_cons_of_mem p hq)

theorem planLoop_eq_noStop (minC : ℚ) (l : List ApiRoute.Ranked)
    (h : ∀ p ∈ l, minC ≤ p.cogs) :
    ∀ rem : ℚ, ApiRoute.planLoop minC rem l = ApiRoute.planLoopNoStop rem l := by
  induction l with
  | nil => intro rem; rfl
  | cons p rest ih =>
    intro rem
    have hrest : ∀ q ∈ rest, minC ≤ q.cogs := fun q hq => h q (List.mem_cons_of_mem p hq)
    rw [ApiRoute.planLoop, ApiRoute.planLoopNoStop]
    by_cases hc : p.cogs ≤ 0
    · rw [if_pos hc, if_pos hc]
      exact ih hrest rem
    · rw [if_neg hc, if_neg hc]
      by_cases hb : 0 < max 0 (min (max 1 ⌈p.qty_per_day * 5⌉) ⌊rem / p.cogs⌋)
      · simp only [hb, if_true]
        by_cases hstop :
            rem - ((max 0 (min (max 1 ⌈p.qty_per_day * 5⌉) ⌊rem / p.cogs⌋) : ℤ) : ℚ) * p.cogs < minC
        · simp only [hstop, if_true]
          rw [planLoopNoStop_nil rest _ fun q hq hq0 => lt_of_lt_of_le hstop (hrest q hq)]
        · simp only [hstop, if_false]
          rw [ih hrest _]
      · simp only [hb, if_false]
        by_cases hstop : rem < minC
        · simp only [hstop, if_true]
          rw [planLoopNoStop_nil rest rem fun q hq hq0 => lt_of_lt_of_le hstop (hrest q hq)]
        · simp only [hstop, if_false]
          exact ih hrest rem

theorem round2_le (x : ℚ) : round2 x ≤ x + 1 / 200 := by
  rw [round2]
  by_cases h : 0 ≤ x
  · rw [if_pos h]
    have hf : ((⌊x * 100 + 1 / 2⌋ : ℤ) : ℚ) ≤ x * 100 + 1 / 2 := Int.floor_le _
    linarith
  · rw [if_neg h]
    have hf : -x * 100 + 1 / 2 < (⌊-x * 100 + 1 / 2⌋ : ℤ) + 1 := Int.lt_floor_add_one _
    linarith

theorem planLoop_spend (minC : ℚ) (l : List ApiRoute.Ranked) :
    ∀ rem : ℚ, 0 ≤ rem →
      sumBy (fun i => i.budget_spend) (ApiRoute.planLoop minC rem l) ≤
        rem + ((ApiRoute.planLoop minC rem l).length : ℚ) * (1 / 200) := by
  induction l with
  | nil =>
    intro rem hrem
    simpa [ApiRoute.planLoop, sumBy] using hrem
  | cons p rest ih =>
    intro rem hrem
    rw [ApiRoute.planLoop]
    by_cases hc : p.cogs ≤ 0
    · rw [if_pos hc]; exact ih rem hrem
    · rw [if_neg hc]
      have hc' : 0 < p.cogs := lt_of_not_ge hc
      by_cases hb : 0 < max 0 (min (max 1 ⌈p.qty_per_day * 5⌉) ⌊rem / p.cogs⌋)
      · simp only [hb, if_true]
        have hspend :
            ((max 0 (min (max 1 ⌈p.qty_per_day * 5⌉) ⌊rem / p.cogs⌋) : ℤ) : ℚ) * p.cogs ≤ rem :=
          buyUnits_mul_le rem p.cogs hc' _ hb
        have hr2 :
            round2 (((max 0 (min (max 1 ⌈p.qty_per_day * 5⌉) ⌊rem / p.cogs⌋) : ℤ) : ℚ) * p.cogs) ≤
              ((max 0 (min (max 1 ⌈p.qty_per_day * 5⌉) ⌊rem / p.cogs⌋) : ℤ) : ℚ) * p.cogs + 1 / 200 :=
          round2_le _
        by_cases hstop :
            rem - ((max 0 (min (max 1 ⌈p.qty_per_day * 5⌉) ⌊rem / p.cogs⌋) : ℤ) : ℚ) * p.cogs < minC
        · simp only [hstop, if_true]
          simp only [sumBy, List.map_cons, List.map_nil, List.sum_cons, List.sum_nil,
            ApiRoute.planItem, List.length_cons, List.length_nil]
          push_cast
          push_cast at hspend hr2
          linarith
        · simp only [hstop, if_false]
          have h0 : 0 ≤ rem - ((max 0 (min (max 1 ⌈p.qty_per_day * 5⌉) ⌊rem / p.cogs⌋) : ℤ) : ℚ) * p.cogs := by
            linarith
          have hIH := ih _ h0
          rw [sumBy_cons]
          simp only [ApiRoute.planItem, List.length_cons]
          push_cast
          push_cast at hspend hr2 hIH
          linarith
      · simp only [hb, if_false]
        by_cases hstop : rem < minC
        · simp only [hstop, if_true]
          simpa [sumBy] using hrem
        · simp only [hstop, if_false]
          exact ih rem hrem

theorem ltMargin_asymm (a b : LowMarginProduct) :
    decide (a.margin_pct < b.margin_pct) = true →
      decide (b.margin_pct < a.margin_pct) = false := by
  simp only [decide_eq_true_eq, decide_eq_false_iff_not]
  intro h
  linarith

theorem ltMargin_negtrans (a b c : LowMarginProduct) :
    decide (a.margin_pct < b.margin_pct) = false →
      decide (b.margin_pct < c.margin_pct) = false →
        decide (a.margin_pct < c.margin_pct) = false := by
  simp only [decide_eq_false_iff_not, not_lt]
  intro h1 h2
  linarith

theorem ltMarginRevenue_asymm (a b : LowMarginProduct) :
    LibAnalysis.ltMarginRevenue a b = true → LibAnalysis.ltMarginRevenue b a = false := by
  rw [LibAnalysis.ltMarginRevenue, LibAnalysis.ltMarginRevenue]
  by_cases h1 : a.margin_pct = b.margin_pct
  · rw [if_pos h1, if_pos h1.symm]
    simp only [decide_eq_true_eq, decide_eq_false_iff_not, not_lt]
    intro h
    linarith
  · rw [if_neg h1, if_neg (fun h => h1 h.symm)]
    simp only [decide_eq_true_eq, decide_eq_false_iff_not, not_lt]
    intro h
    linarith

theorem ltMarginRevenue_negtrans (a b c : LowMarginProduct) :
    LibAnalysis.ltMarginRevenue a b = false → LibAnalysis.ltMarginRevenue b c = false →
      LibAnalysis.ltMarginRevenue a c = false := by
  rw [LibAnalysis.ltMarginRevenue, LibAnalysis.ltMarginRevenue, LibAnalysis.ltMarginRevenue]
  by_cases h1 : a.margin_pct = b.margin_pct
  · by_cases h2 : b.margin_pct = c.margin_pct
    · rw [if_pos h1, if_pos h2, if_pos (h1.trans h2)]
      simp only [decide_eq_false_iff_not, not_lt]
      intro hab hbc
      linarith
    · rw [if_pos h1, if_neg h2, if_neg (fun h => h2 (h1.symm.trans h))]
      simp only [decide_eq_false_iff_not, not_lt]
      intro _ hbc
      linarith [h1.le]
  · by_cases h2 : b.margin_pct = c.margin_pct
    · rw [if_neg h1, if_pos h2, if_neg (fun h => h1 (h.trans h2.symm))]
      simp only [decide_eq_false_iff_not, not_lt]
      intro hab _
      linarith [h2.le]
    · rw [if_neg h1, if_neg h2]
      by_cases h3 : a.margin_pct = c.margin_pct
      · rw [if_pos h3]
        simp only [decide_eq_false_iff_not, not_lt]
        intro hab hbc
        have hba : b.margin_pct < a.margin_pct :=
          lt_of_le_of_ne hab (fun h => h1 h.symm)
        have hcb : c.margin_pct < b.margin_pct :=
          lt_of_le_of_ne hbc (fun h => h2 h.symm)
        exfalso
        rw [h3] at hba
        linarith
      · rw [if_neg h3]
        simp only [decide_eq_false_iff_not, not_lt]
        intro hab hbc
        linarith

theorem sumBy_nil (f : α → ℚ) : sumBy f [] = 0 := rfl

theorem ltMarginRevenue_false (a b : LowMarginProduct)
    (h : LibAnalysis.ltMarginRevenue b a = false) :
    a.margin_pct < b.margin_pct ∨
      (a.margin_pct = b.margin_pct ∧ a.revenue ≤ b.revenue) := by
  rw [LibAnalysis.ltMarginRevenue] at h
  by_cases he : b.margin_pct = a.margin_pct
  · rw [if_pos he] at h
    exact Or.inr ⟨he.symm, not_lt.mp (of_decide_eq_false h)⟩
  · rw [if_neg he] at h
    exact Or.inl (lt_of_le_of_ne (not_lt.mp (of_decide_eq_false h)) (fun e => he e.symm))

/-! ### Claim theorems -/

/-- C1 (amended): for every dataset and non-negative budget, the sum of the
`budget_spend` fields of `generateReorderPlan` is at most
`budget + 0.005 × (number of plan items)`; the pre-rounding spends themselves
never exceed the budget, but rounding each `budget_spend` to 2 decimal places
can push each reported entry up by half a cent, so the claimed bound
`sum ≤ budget` does not survive the rounding. -/
theorem C1_reorder_spend_bound (d : CashFlowData) (budget : ℚ) (hb : 0 ≤ budget) :
    sumBy (fun i => i.budget_spend) (ApiRoute.generateReorderPlan d budget) ≤
      budget + ((ApiRoute.generateReorderPlan d budget).length : ℚ) * (1 / 200) :=
  planLoop_spend _ _ budget hb

/-- C1 witness: the bound of `C1_reorder_spend_bound` instantiated at the
half-cent dataset and budget 1/200. -/
theorem C1_reorder_spend_bound_witness :
    (0 : ℚ) ≤ 1 / 200 ∧
      sumBy (fun i => i.budget_spend) (ApiRoute.generateReorderPlan dHalfCent (1 / 200)) ≤
        1 / 200 + ((ApiRoute.generateReorderPlan dHalfCent (1 / 200)).length : ℚ) * (1 / 200) :=
  ⟨by norm_num, C1_reorder_spend_bound dHalfCent (1 / 200) (by norm_num)⟩

/-- C1 counterexample: with one product of unit cost 1/200 and budget 1/200,
the single plan item's `budget_spend` rounds 0.005 up to 0.01, so the plan's
total `budget_spend` exceeds the budget. -/
theorem C1_counterexample :
    ¬ sumBy (fun i => i.budget_spend) (ApiRoute.generateReorderPlan dHalfCent (1 / 200)) ≤ 1 / 200 := by
  norm_num [dHalfCent, tHalfCent, ApiRoute.generateReorderPlan, ApiRoute.rankedOf,
    ApiRoute.rpStats, ApiRoute.rpStep, ApiRoute.daysOf, listMinQ, listMaxQ, findAssoc,
    updateAssoc, stableSort, stableInsert, ApiRoute.planLoop, ApiRoute.planItem, round2, sumBy]

/-- C6 (amended): `generateReorderPlan` of `route.ts` returns the empty list
whenever the dataset has no transactions (absent or empty collection, any
budget) and whenever the budget is 0 (any dataset); the `lib/analysis.ts`
copy does the same only when its transactions collection is present — it
throws on an absent collection (see the counterexample). -/
theorem C6_empty_plan (d : CashFlowData) (budget : ℚ) :
    ((d.transactions = none ∨ d.transactions = some []) →
        ApiRoute.generateReorderPlan d budget = []) ∧
      ApiRoute.generateReorderPlan d 0 = [] ∧
      (d.transactions = some [] → LibAnalysis.generateReorderPlan d budget = some []) ∧
      (d.transactions.isSome → LibAnalysis.generateReorderPlan d 0 = some []) := by
  refine ⟨?_, planLoop_zero _ _, ?_, ?_⟩
  · rintro (h | h) <;>
      simp [ApiRoute.generateReorderPlan, ApiRoute.rankedOf, ApiRoute.rpStats, h,
        stableSort, listMinQ, ApiRoute.planLoop]
  · intro h
    simp [LibAnalysis.generateReorderPlan, LibAnalysis.rankedOfL, ApiRoute.rpStats, h,
      stableSort, listMinQ, ApiRoute.planLoop]
  · intro h
    obtain ⟨ts, hts⟩ := Option.isSome_iff_exists.mp h
    simp only [LibAnalysis.generateReorderPlan, hts]
    exact congrArg some (planLoop_zero _ _)

/-- C6 witness: the empty dataset with budget 7 yields the empty plan in both
copies, and budget 0 yields the empty plan on the half-cent dataset. -/
theorem C6_empty_plan_witness :
    ApiRoute.generateReorderPlan dEmpty 7 = [] ∧
      ApiRoute.generateReorderPlan dHalfCent 0 = [] ∧
      LibAnalysis.generateReorderPlan dEmpty 7 = some [] ∧
      LibAnalysis.generateReorderPlan dHalfCent 0 = some [] :=
  ⟨(C6_empty_plan dEmpty 7).1 (Or.inr rfl), (C6_empty_plan dHalfCent 0).2.1,
    (C6_empty_plan dEmpty 7).2.2.1 rfl, (C6_empty_plan dHalfCent 0).2.2.2 rfl⟩

/-- C6 counterexample: the `lib/analysis.ts` copy destructures the dataset
without a default, so on a dataset whose transactions collection is absent it
throws a `TypeError` (modelled `none`) instead of returning the empty plan —
even at budget 0 — refuting the claim for that cited copy. -/
theorem C6_counterexample :
    LibAnalysis.generateReorderPlan ⟨none, some [], some [], none⟩ 0 = none := rfl

/-- C8: the allocation walk with the early stop produces exactly the plan the
same walk produces over the entire ranked list without the stop, for every
dataset and budget: once `remaining` drops below the minimum `cogs` of the
ranked list every later product would get `buyUnits = 0`. -/
theorem C8_early_stop_equiv (d : CashFlowData) (budget : ℚ) :
    ApiRoute.generateReorderPlan d budget = ApiRoute.generateReorderPlanNoStop d budget := by
  have h : ∀ p ∈ ApiRoute.rankedOf (d.transactions.getD []),
      listMinQ ((ApiRoute.rankedOf (d.transactions.getD [])).map (fun p => p.cogs)) ≤ p.cogs :=
    fun p hp => listMinQ_le _ _ (List.mem_map_of_mem _ hp)
  exact planLoop_eq_noStop _ _ h budget

/-- C10: the `POST` handler's reorder branch runs `generateReorderPlan` with
`budget || 500`, so a request with budget 0 (or an absent budget) is served
the 500-budget plan, not the empty plan that `generateReorderPlan(dataset, 0)`
itself yields. -/
theorem C10_budget_default (d : CashFlowData) :
    ApiRoute.postReorderPlan d (some 0) = ApiRoute.generateReorderPlan d 500 ∧
      ApiRoute.postReorderPlan d none = ApiRoute.generateReorderPlan d 500 ∧
      ApiRoute.generateReorderPlan d 0 = [] :=
  ⟨by rw [ApiRoute.postReorderPlan, ApiRoute.postEffectiveBudget, if_pos rfl],
    rfl, planLoop_zero _ _⟩

/-- C3 (amended): `calculateSnapshot` of `route.ts` is a total function whose
summed fields are 0 whenever the contributing collection is empty or absent;
`calculateExecutiveSnapshot` of `lib/analysis.ts` is only total (returns
`some`) when all three destructured collections are present — it throws on an
absent collection (see the counterexample). -/
theorem C3_snapshot_total (d : CashFlowData) :
    ((d.transactions = none ∨ d.transactions = some []) →
        (ApiRoute.calculateSnapshot d).totalTransactions = 0 ∧
        (ApiRoute.calculateSnapshot d).itemsSold = 0 ∧
        (ApiRoute.calculateSnapshot d).grossSales = 0 ∧
        (ApiRoute.calculateSnapshot d).discounts = 0 ∧
        (ApiRoute.calculateSnapshot d).cardSales = 0 ∧
        (ApiRoute.calculateSnapshot d).cashSales = 0) ∧
      ((d.payouts = none ∨ d.payouts = some []) →
        (ApiRoute.calculateSnapshot d).processorFees = 0) ∧
      ((d.refunds = none ∨ d.refunds = some []) →
        (ApiRoute.calculateSnapshot d).refunds = 0) ∧
      ((d.transactions.isSome ∧ d.refunds.isSome ∧ d.payouts.isSome) →
        (LibAnalysis.calculateExecutiveSnapshot d).isSome) := by
  refine ⟨?_, ?_, ?_, ?_⟩
  · rintro (h | h) <;> simp [ApiRoute.calculateSnapshot, sumBy, h]
  · rintro (h | h) <;> simp [ApiRoute.calculateSnapshot, sumBy, h]
  · rintro (h | h) <;> simp [ApiRoute.calculateSnapshot, sumBy, h]
  · rintro ⟨h1, h2, h3⟩
    obtain ⟨ts, hts⟩ := Option.isSome_iff_exists.mp h1
    obtain ⟨rs, hrs⟩ := Option.isSome_iff_exists.mp h2
    obtain ⟨ps, hps⟩ := Option.isSome_iff_exists.mp h3
    simp [LibAnalysis.calculateExecutiveSnapshot, hts, hrs, hps]

/-- C3 witness: `C3_snapshot_total` instantiated at the present-but-empty
dataset: all summed fields are 0 and the lib snapshot is defined. -/
theorem C3_snapshot_total_witness :
    (ApiRoute.calculateSnapshot dEmpty).itemsSold = 0 ∧
      (ApiRoute.calculateSnapshot dEmpty).processorFees = 0 ∧
      (ApiRoute.calculateSnapshot dEmpty).refunds = 0 ∧
      (LibAnalysis.calculateExecutiveSnapshot dEmpty).isSome :=
  ⟨((C3_snapshot_total dEmpty).1 (Or.inr rfl)).2.1,
    (C3_snapshot_total dEmpty).2.1 (Or.inr rfl),
    (C3_snapshot_total dEmpty).2.2.1 (Or.inr rfl),
    (C3_snapshot_total dEmpty).2.2.2 ⟨rfl, rfl, rfl⟩⟩

/-- C3 counterexample: the lib snapshot of a dataset with all collections
absent is `none` (the JavaScript throws on `undefined.filter`), refuting
totality of the snapshot computation over datasets with absent collections
for the `lib/analysis.ts` copy. -/
theorem C3_counterexample :
    LibAnalysis.calculateExecutiveSnapshot ⟨none, none, none, none⟩ = none := rfl

/-- C7 (amended): of the three duplicated analytics functions, only the
snapshot pair implements identical logic — whenever the lib version's
destructured collections are present it returns exactly the route.ts
snapshot.  The other two pairs genuinely differ (see the counterexample). -/
theorem C7_snapshot_agree (d : CashFlowData) (ts : List Transaction)
    (rs : List Refund) (ps : List Payout)
    (hts : d.transactions = some ts) (hrs : d.refunds = some rs)
    (hps : d.payouts = some ps) :
    LibAnalysis.calculateExecutiveSnapshot d = some (ApiRoute.calculateSnapshot d) := by
  simp [LibAnalysis.calculateExecutiveSnapshot, ApiRoute.calculateSnapshot, hts, hrs, hps]

/-- C7 witness: the snapshot agreement instantiated at the
present-but-empty dataset. -/
theorem C7_snapshot_agree_witness :
    LibAnalysis.calculateExecutiveSnapshot dEmpty = some (ApiRoute.calculateSnapshot dEmpty) :=
  C7_snapshot_agree dEmpty [] [] [] rfl rfl rfl

/-- C7 counterexample: on the zero-revenue dataset the route.ts analyzer
returns no low-margin product (its `revenue > 0` filter drops the group)
while the lib analyzer returns one — the duplicated analyzers do not
implement the same logic. -/
theorem C7_counterexample :
    (ApiRoute.analyzeCashEaters dZeroRev).lowMarginProducts = [] ∧
      (LibAnalysis.analyzeCashEaters dZeroRev).map (fun r => r.lowMarginProducts.length) = some 1 := by
  constructor
  · norm_num [dZeroRev, tZeroRev, ApiRoute.analyzeCashEaters, ApiRoute.ceStats,
      ApiRoute.ceStep, ApiRoute.lowMarginEntry, findAssoc, updateAssoc, stableSort,
      stableInsert, sumBy]
  · norm_num [dZeroRev, tZeroRev, LibAnalysis.analyzeCashEaters, LibAnalysis.ceStatsL,
      LibAnalysis.ceStepL, LibAnalysis.ltMarginRevenue, ApiRoute.lowMarginEntry,
      findAssoc, updateAssoc, stableSort, stableInsert, sumBy, jsDiv]

/-- C2 (amended): the route.ts `analyzeCashEaters` returns exactly three
entries whose categories are a permutation of
{Discounts, Refunds, Processor fees}; their percentages sum to exactly 100
when the drain total is positive and are all 0 when the total is 0.  The
`lib/analysis.ts` copy divides without a guard and produces `NaN` percentages
when the total is 0 (see the counterexample). -/
theorem C2_cash_eaters (d : CashFlowData) :
    (ApiRoute.analyzeCashEaters d).cashEaters.length = 3 ∧
      ((ApiRoute.analyzeCashEaters d).cashEaters.map (fun e => e.category)).Perm
        ["Discounts", "Refunds", "Processor fees"] ∧
      (0 < ApiRoute.totalDrain d →
        sumBy (fun e => e.percentage) (ApiRoute.analyzeCashEaters d).cashEaters = 100) ∧
      (ApiRoute.totalDrain d = 0 →
        ∀ e ∈ (ApiRoute.analyzeCashEaters d).cashEaters, e.percentage = 0) := by
  have hceq : (ApiRoute.analyzeCashEaters d).cashEaters
      = stableSort (fun a b => decide (b.amount < a.amount)) (ApiRoute.cashEatersBase d) := rfl
  have hperm : (stableSort (fun a b => decide (b.amount < a.amount))
      (ApiRoute.cashEatersBase d)).Perm (ApiRoute.cashEatersBase d) := stableSort_perm _ _
  refine ⟨?_, ?_, ?_, ?_⟩
  · rw [hceq, hperm.length_eq]
    rfl
  · rw [hceq]
    have hmap := hperm.map (fun e => e.category)
    have hbase : (ApiRoute.cashEatersBase d).map (fun e => e.category)
        = ["Discounts", "Refunds", "Processor fees"] := rfl
    rw [hbase] at hmap
    exact hmap
  · intro h
    rw [hceq]
    have hsum : sumBy (fun e => e.percentage)
        (stableSort (fun a b => decide (b.amount < a.amount)) (ApiRoute.cashEatersBase d))
        = sumBy (fun e => e.percentage) (ApiRoute.cashEatersBase d) := by
      simp only [sumBy]
      exact (hperm.map (fun e => e.percentage)).sum_eq
    rw [hsum]
    simp only [ApiRoute.totalDrain] at h
    simp only [ApiRoute.cashEatersBase, sumBy_cons, sumBy_nil]
    rw [if_pos h, if_pos h, if_pos h]
    have hne := ne_of_gt h
    field_simp
    ring
  · intro h0 e he
    rw [hceq] at he
    have he2 : e ∈ ApiRoute.cashEatersBase d := (mem_stableSort _ _ _).mp he
    simp only [ApiRoute.totalDrain] at h0
    have hnot : ¬(0 < sumBy (fun t => t.discount) (d.transactions.getD []) +
        sumBy (fun r => r.refund_amount) (d.refunds.getD []) +
        sumBy (fun p => p.processor_fees) (d.payouts.getD [])) := by
      rw [h0]
      exact lt_irrefl 0
    simp only [ApiRoute.cashEatersBase, List.mem_cons, List.not_mem_nil, or_false] at he2
    rcases he2 with rfl | rfl | rfl <;> simp [hnot]

/-- C2 witness: `C2_cash_eaters` applied to a dataset with a positive refund
(percentages sum to 100) and to the empty dataset (a concrete entry has
percentage 0). -/
theorem C2_cash_eaters_witness :
    0 < ApiRoute.totalDrain dRefundOnly ∧
      sumBy (fun e => e.percentage) (ApiRoute.analyzeCashEaters dRefundOnly).cashEaters = 100 ∧
      ApiRoute.totalDrain dEmpty = 0 ∧
      ({ category := "Discounts", amount := 0, percentage := 0 } : CashEater) ∈
        (ApiRoute.analyzeCashEaters dEmpty).cashEaters ∧
      ({ category := "Discounts", amount := 0, percentage := 0 } : CashEater).percentage = 0 := by
  have hpos : 0 < ApiRoute.totalDrain dRefundOnly := by
    norm_num [ApiRoute.totalDrain, dRefundOnly, sumBy]
  have hzero : ApiRoute.totalDrain dEmpty = 0 := by
    norm_num [ApiRoute.totalDrain, dEmpty, sumBy]
  have hmem : ({ category := "Discounts", amount := 0, percentage := 0 } : CashEater) ∈
      (ApiRoute.analyzeCashEaters dEmpty).cashEaters := by
    norm_num [ApiRoute.analyzeCashEaters, ApiRoute.cashEatersBase, dEmpty, sumBy,
      stableSort, stableInsert]
  exact ⟨hpos, (C2_cash_eaters dRefundOnly).2.2.1 hpos, hzero, hmem,
    (C2_cash_eaters dEmpty).2.2.2 hzero _ hmem⟩

/-- C2 counterexample: on the present-but-empty dataset the lib analyzer's
three percentages are all `NaN` (undefined division, modelled `none`), not 0:
the claim's "never NaN" fails for the `lib/analysis.ts` copy. -/
theorem C2_counterexample :
    (LibAnalysis.analyzeCashEaters dEmpty).map (fun r => r.cashEaters.map (fun e => e.percentage))
      = some [none, none, none] := by
  norm_num [LibAnalysis.analyzeCashEaters, LibAnalysis.ceStatsL, dEmpty, sumBy, jsDiv,
    stableSort, stableInsert]

/-- C4 (amended): the route.ts `lowMarginProducts` has length at most 5 and
every entry has positive revenue; the `lib/analysis.ts` copy guarantees only
the length bound — it has no `revenue > 0` filter (see the counterexample). -/
theorem C4_low_margin_bounds (d : CashFlowData) :
    (ApiRoute.analyzeCashEaters d).lowMarginProducts.length ≤ 5 ∧
      (∀ p ∈ (ApiRoute.analyzeCashEaters d).lowMarginProducts, 0 < p.revenue) ∧
      (LibAnalysis.libLowMargins d).length ≤ 5 := by
  refine ⟨?_, ?_, ?_⟩
  · show ((stableSort (fun a b => decide (a.margin_pct < b.margin_pct))
        (((ApiRoute.ceStats (d.transactions.getD [])).map ApiRoute.lowMarginEntry).filter
          (fun p => decide (0 < p.revenue)))).take 5).length ≤ 5
    rw [List.length_take]
    exact min_le_left _ _
  · intro p hp
    have hp2 : p ∈ stableSort (fun a b => decide (a.margin_pct < b.margin_pct))
        (((ApiRoute.ceStats (d.transactions.getD [])).map ApiRoute.lowMarginEntry).filter
          (fun p => decide (0 < p.revenue))) := List.mem_of_mem_take hp
    exact of_decide_eq_true (List.mem_filter.mp ((mem_stableSort _ _ _).mp hp2)).2
  · rcases d with ⟨ot, orr, op, oprod⟩
    cases ot <;> cases orr <;> cases op <;>
        simp only [LibAnalysis.libLowMargins, LibAnalysis.analyzeCashEaters,
          Option.map_none', Option.map_some', Option.getD_none, Option.getD_some,
          List.length_nil, List.length_take] <;>
      omega

/-- The low-margin entry product A accumulates in `dTie`. -/
def lmEntryA : LowMarginProduct :=
  { product_id := "pa", product_name := "A", revenue := 10, gross_profit := 5,
    margin_pct := 1 / 2 }

/-- C4 witness: `C4_low_margin_bounds` at the equal-margin dataset: the
concrete product A entry is in the list and has positive revenue. -/
theorem C4_low_margin_bounds_witness :
    (ApiRoute.analyzeCashEaters dTie).lowMarginProducts.length ≤ 5 ∧
      lmEntryA ∈ (ApiRoute.analyzeCashEaters dTie).lowMarginProducts ∧
      0 < lmEntryA.revenue := by
  have hmem : lmEntryA ∈ (ApiRoute.analyzeCashEaters dTie).lowMarginProducts := by
    simp [ApiRoute.analyzeCashEaters, ApiRoute.ceStats, ApiRoute.ceStep,
      ApiRoute.lowMarginEntry, lmEntryA, dTie, tMarginA, tMarginB, findAssoc, updateAssoc,
      stableSort, stableInsert, sumBy]
    norm_num
  exact ⟨(C4_low_margin_bounds dTie).1, hmem, (C4_low_margin_bounds dTie).2.1 _ hmem⟩

/-- C4 counterexample: the lib analyzer keeps the revenue-0 product group —
its `lowMarginProducts` on the zero-revenue dataset is a single entry with
revenue 0, refuting "every entry has revenue > 0". -/
theorem C4_counterexample :
    (LibAnalysis.analyzeCashEaters dZeroRev).map (fun r => r.lowMarginProducts.map (fun p => p.revenue))
      = some [0] := by
  norm_num [LibAnalysis.analyzeCashEaters, LibAnalysis.ceStatsL, LibAnalysis.ceStepL,
    LibAnalysis.ltMarginRevenue, ApiRoute.lowMarginEntry, dZeroRev, tZeroRev,
    findAssoc, updateAssoc, stableSort, stableInsert, sumBy, jsDiv]

/-- C5 (amended): both copies emit `lowMarginProducts` sorted ascending by
`margin_pct`, but only the `lib/analysis.ts` copy tie-breaks equal margins by
ascending revenue; the route.ts copy keeps encounter order on ties (see the
counterexample). -/
theorem C5_low_margin_sorted (d : CashFlowData) :
    List.Pairwise (fun a b => a.margin_pct ≤ b.margin_pct)
        (ApiRoute.analyzeCashEaters d).lowMarginProducts ∧
      List.Pairwise (fun a b => a.margin_pct < b.margin_pct ∨
          (a.margin_pct = b.margin_pct ∧ a.revenue ≤ b.revenue))
        (LibAnalysis.libLowMargins d) := by
  constructor
  · have hp := stableSort_pairwise (fun a b => decide (a.margin_pct < b.margin_pct))
      ltMargin_asymm ltMargin_negtrans
      (((ApiRoute.ceStats (d.transactions.getD [])).map ApiRoute.lowMarginEntry).filter
        (fun p => decide (0 < p.revenue)))
    have hp2 := hp.imp (fun h => not_lt.mp (of_decide_eq_false h))
    exact List.Pairwise.sublist (List.take_sublist 5 _) hp2
  · rcases d with ⟨ot, orr, op, oprod⟩
    cases ot <;> cases orr <;> cases op <;>
        simp only [LibAnalysis.libLowMargins, LibAnalysis.analyzeCashEaters,
          Option.map_none', Option.map_some', Option.getD_none, Option.getD_some]
    case some.some.some ts rs ps =>
      have hp := stableSort_pairwise LibAnalysis.ltMarginRevenue
        ltMarginRevenue_asymm ltMarginRevenue_negtrans
        ((LibAnalysis.ceStatsL ts).map ApiRoute.lowMarginEntry)
      have hp2 := hp.imp (fun h => ltMarginRevenue_false _ _ h)
      exact List.Pairwise.sublist (List.take_sublist 5 _) hp2
    all_goals exact List.Pairwise.nil

/-- C5 counterexample: two products with equal margin 1/2 and revenues 10
then 2 (encounter order): the route.ts copy returns them with revenues
[10, 2] — equal margins are not in ascending revenue order. -/
theorem C5_counterexample :
    (ApiRoute.analyzeCashEaters dTie).lowMarginProducts.map (fun p => p.revenue) = [10, 2] ∧
      (ApiRoute.analyzeCashEaters dTie).lowMarginProducts.map (fun p => p.margin_pct)
        = [1 / 2, 1 / 2] := by
  constructor <;>
    · simp [ApiRoute.analyzeCashEaters, ApiRoute.ceStats, ApiRoute.ceStep,
        ApiRoute.lowMarginEntry, dTie, tMarginA, tMarginB, findAssoc, updateAssoc,
        stableSort, stableInsert, sumBy]
      norm_num

/-- C9 (amended): for the route.ts analyzer, a transaction row with a missing
(falsy) `product_id` or `product_name` contributes to no product group — the
grouping map and `lowMarginProducts` are unchanged by the row — while its
quantity, gross sales, discount and net sales still contribute to the
snapshot's dataset-wide sums.  The `lib/analysis.ts` copy lacks the guard and
groups such rows under the missing key (see the counterexample). -/
theorem C9_unattributable_row (d : CashFlowData) (t : Transaction)
    (hbad : t.product_id = "" ∨ t.product_name = "") :
    ApiRoute.ceStats (t :: d.transactions.getD []) = ApiRoute.ceStats (d.transactions.getD []) ∧
      (ApiRoute.analyzeCashEaters
          { d with transactions := some (t :: d.transactions.getD []) }).lowMarginProducts =
        (ApiRoute.analyzeCashEaters d).lowMarginProducts ∧
      (ApiRoute.calculateSnapshot
          { d with transactions := some (t :: d.transactions.getD []) }).itemsSold =
        t.quantity + (ApiRoute.calculateSnapshot d).itemsSold ∧
      (ApiRoute.calculateSnapshot
          { d with transactions := some (t :: d.transactions.getD []) }).grossSales =
        t.gross_sales + (ApiRoute.calculateSnapshot d).grossSales ∧
      (ApiRoute.calculateSnapshot
          { d with transactions := some (t :: d.transactions.getD []) }).discounts =
        t.discount + (ApiRoute.calculateSnapshot d).discounts ∧
      (t.payment_type = "card" →
        (ApiRoute.calculateSnapshot
            { d with transactions := some (t :: d.transactions.getD []) }).cardSales =
          t.net_sales + (ApiRoute.calculateSnapshot d).cardSales) ∧
      (t.payment_type = "cash" →
        (ApiRoute.calculateSnapshot
            { d with transactions := some (t :: d.transactions.getD []) }).cashSales =
          t.net_sales + (ApiRoute.calculateSnapshot d).cashSales) := by
  have hstep : ApiRoute.ceStep [] t = [] := by
    rw [ApiRoute.ceStep, if_pos hbad]
  have hstats : ApiRoute.ceStats (t :: d.transactions.getD [])
      = ApiRoute.ceStats (d.transactions.getD []) := by
    simp only [ApiRoute.ceStats, List.foldl_cons, hstep]
  refine ⟨hstats, ?_, ?_, ?_, ?_, ?_, ?_⟩
  · show ((stableSort (fun a b => decide (a.margin_pct < b.margin_pct))
        (((ApiRoute.ceStats (t :: d.transactions.getD [])).map ApiRoute.lowMarginEntry).filter
          (fun p => decide (0 < p.revenue)))).take 5) =
      ((stableSort (fun a b => decide (a.margin_pct < b.margin_pct))
        (((ApiRoute.ceStats (d.transactions.getD [])).map ApiRoute.lowMarginEntry).filter
          (fun p => decide (0 < p.revenue)))).take 5)
    rw [hstats]
  · exact sumBy_cons _ _ _
  · exact sumBy_cons _ _ _
  · exact sumBy_cons _ _ _
  · intro hcard
    show sumBy (fun x => x.net_sales)
        (List.filter (fun x => decide (x.payment_type = "card")) (t :: d.transactions.getD [])) =
      t.net_sales + sumBy (fun x => x.net_sales)
        (List.filter (fun x => decide (x.payment_type = "card")) (d.transactions.getD []))
    rw [show List.filter (fun x => decide (x.payment_type = "card")) (t :: d.transactions.getD [])
          = t :: List.filter (fun x => decide (x.payment_type = "card")) (d.transactions.getD [])
        from List.filter_cons_of_pos (decide_eq_true hcard)]
    exact sumBy_cons _ _ _
  · intro hcash
    show sumBy (fun x => x.net_sales)
        (List.filter (fun x => decide (x.payment_type = "cash")) (t :: d.transactions.getD [])) =
      t.net_sales + sumBy (fun x => x.net_sales)
        (List.filter (fun x => decide (x.payment_type = "cash")) (d.transactions.getD []))
    rw [show List.filter (fun x => decide (x.payment_type = "cash")) (t :: d.transactions.getD [])
          = t :: List.filter (fun x => decide (x.payment_type = "cash")) (d.transactions.getD [])
        from List.filter_cons_of_pos (decide_eq_true hcash)]
    exact sumBy_cons _ _ _

/-- C9 witness: `C9_unattributable_row` applied to the empty dataset and the
row with missing product fields: the row leaves the grouping empty while its
quantity reaches `itemsSold`. -/
theorem C9_unattributable_row_witness :
    tNoId.product_id = "" ∧
      ApiRoute.ceStats (tNoId :: dEmpty.transactions.getD []) =
        ApiRoute.ceStats (dEmpty.transactions.getD []) ∧
      (ApiRoute.calculateSnapshot
          { dEmpty with transactions := some (tNoId :: dEmpty.transactions.getD []) }).itemsSold =
        tNoId.quantity + (ApiRoute.calculateSnapshot dEmpty).itemsSold :=
  ⟨rfl, (C9_unattributable_row dEmpty tNoId (Or.inl rfl)).1,
    (C9_unattributable_row dEmpty tNoId (Or.inl rfl)).2.2.1⟩

/-- C9 counterexample: the lib analyzer groups the missing-id row under the
empty key, and the resulting product group does appear as a
`lowMarginProducts` entry (with `product_id = ""`), refuting the claim for
the `lib/analysis.ts` copy. -/
theorem C9_counterexample :
    (LibAnalysis.analyzeCashEaters dNoId).map
        (fun r => r.lowMarginProducts.map (fun p => p.product_id)) = some [""] := by
  norm_num [LibAnalysis.analyzeCashEaters, LibAnalysis.ceStatsL, LibAnalysis.ceStepL,
    LibAnalysis.ltMarginRevenue, ApiRoute.lowMarginEntry, dNoId, tNoId,
    findAssoc, updateAssoc, stableSort, stableInsert, sumBy, jsDiv]

end RetailPilot
